import Mathlib

/-!
Verification of the InsightFlow repository: a Next.js chat front end over an
Excel-analysis backend.  The development embeds, as pure Lean functions, the
tool registry (src/src/lib/tools/registry.ts), the tool definitions
(src/src/lib/tools/definitions.ts), the orchestrating chat route
(src/app/metadata.ts, POST), the forwarding chat route (src/unnamed/part_001,
POST), and the client submit handler (the Chat component in
src/src/lib/tools/registry.ts, handleSubmit).  The Python backend (the code
validator, sandbox executor and tool dispatch described by the design
document) is not part of the TypeScript sources; where a claim depends on it,
the component is modelled from the design document and is marked as such in
its doc comment.
-/

/-! ## Tool registry (src/src/lib/tools/registry.ts)

`ToolRegistry` wraps a JavaScript `Map<string, PydanticTool>`:
`register` does `map.set(tool.name, tool)`, `get` does `map.get(name)`,
`list` does `Array.from(map.values())`.  A JS `Map.set` replaces the value of
an existing key in place (keeping its insertion position) and otherwise
appends a fresh entry; `Map.values()` iterates in insertion order.  The map
is modelled as an association list with exactly those semantics. -/

structure PTool where
  name : String
  description : String
deriving DecidableEq

/-- JS `Map.set`: replace the first (and, by the registry invariant, only)
entry with the given key in place, otherwise append a new entry. -/
def mapSet : List (String × PTool) → String → PTool → List (String × PTool)
  | [], k, v => [(k, v)]
  | p :: rest, k, v => if p.1 = k then (k, v) :: rest else p :: mapSet rest k v

/-- JS `Map.get`: the value of the first entry with the given key. -/
def mapGet : List (String × PTool) → String → Option PTool
  | [], _ => none
  | p :: rest, k => if p.1 = k then some p.2 else mapGet rest k

/-- `ToolRegistry.register`: `this.tools.set(tool.name, tool)`. -/
def registryRegister (m : List (String × PTool)) (t : PTool) : List (String × PTool) :=
  mapSet m t.name t

/-- A fresh `ToolRegistry` after a sequence of `register` calls. -/
def registerAll (ts : List PTool) : List (String × PTool) :=
  ts.foldl registryRegister []

/-- `ToolRegistry.list`: `Array.from(this.tools.values())`, insertion order. -/
def registryList (m : List (String × PTool)) : List PTool :=
  m.map Prod.snd

/-- The keys of the underlying map, in insertion order. -/
def mapKeys (m : List (String × PTool)) : List String :=
  m.map Prod.fst

/-- The most recently registered tool carrying a given name: later `register`
calls shadow earlier ones with the same name.  (This definition follows the
claim wording and is compared with the registry implementation.) -/
def lastRegistered : List PTool → String → Option PTool
  | [], _ => none
  | t :: rest, n =>
    match lastRegistered rest n with
    | some r => some r
    | none => if t.name = n then some t else none

theorem mapSet_cons_pos (p : String × PTool) (rest : List (String × PTool))
    (k : String) (v : PTool) (h : p.1 = k) :
    mapSet (p :: rest) k v = (k, v) :: rest := by
  simp [mapSet, h]

theorem mapSet_cons_neg (p : String × PTool) (rest : List (String × PTool))
    (k : String) (v : PTool) (h : ¬ p.1 = k) :
    mapSet (p :: rest) k v = p :: mapSet rest k v := by
  simp [mapSet, h]

theorem mapGet_cons (p : String × PTool) (rest : List (String × PTool)) (k : String) :
    mapGet (p :: rest) k = if p.1 = k then some p.2 else mapGet rest k := rfl

theorem mapGet_mapSet (m : List (String × PTool)) (k n : String) (v : PTool) :
    mapGet (mapSet m k v) n = if k = n then some v else mapGet m n := by
  induction m with
  | nil => simp [mapSet, mapGet]
  | cons p rest ih =>
    by_cases h1 : p.1 = k
    · rw [mapSet_cons_pos p rest k v h1, mapGet_cons, mapGet_cons]
      by_cases h2 : k = n
      · simp [h2]
      · have hp : ¬ p.1 = n := by rw [h1]; exact h2
        simp [h2, hp]
    · rw [mapSet_cons_neg p rest k v h1, mapGet_cons, mapGet_cons, ih]
      by_cases h2 : p.1 = n
      · have hk : ¬ k = n := by
          intro hkn
          exact h1 (by rw [h2, hkn])
        simp [h2, hk]
      · simp [h2]

theorem mapGet_foldl (ts : List PTool) (m : List (String × PTool)) (n : String) :
    mapGet (ts.foldl registryRegister m) n =
      match lastRegistered ts n with
      | some r => some r
      | none => mapGet m n := by
  induction ts generalizing m with
  | nil => simp [lastRegistered]
  | cons t rest ih =>
    simp only [List.foldl_cons, lastRegistered, ih, registryRegister, mapGet_mapSet]
    cases lastRegistered rest n with
    | some r => rfl
    | none =>
      by_cases h : t.name = n
      · simp [h]
      · simp [h]

theorem lastRegistered_eq_none (ts : List PTool) (n : String) :
    lastRegistered ts n = none ↔ ∀ t ∈ ts, t.name ≠ n := by
  induction ts with
  | nil => simp [lastRegistered]
  | cons t rest ih =>
    simp only [lastRegistered, List.mem_cons]
    cases h : lastRegistered rest n with
    | some r =>
      constructor
      · intro hc; exact Option.noConfusion hc
      · intro hall
        exfalso
        have h2 := ih.mpr (fun x hx => hall x (Or.inr hx))
        rw [h2] at h
        exact Option.noConfusion h
    | none =>
      by_cases ht : t.name = n
      · rw [if_pos ht]
        constructor
        · intro hc; exact Option.noConfusion hc
        · intro hall; exact absurd ht (hall t (Or.inl rfl))
      · rw [if_neg ht]
        constructor
        · intro _ x hx
          rcases hx with hx | hx
          · rw [hx]; exact ht
          · exact (ih.mp h) x hx
        · intro _; rfl

theorem mem_mapKeys_mapSet (m : List (String × PTool)) (k q : String) (v : PTool) :
    q ∈ mapKeys (mapSet m k v) ↔ q ∈ mapKeys m ∨ q = k := by
  induction m with
  | nil => simp [mapSet, mapKeys]
  | cons p rest ih =>
    by_cases h1 : p.1 = k
    · rw [mapSet_cons_pos p rest k v h1]
      simp only [mapKeys, List.map_cons, List.mem_cons, ← h1]
      tauto
    · rw [mapSet_cons_neg p rest k v h1]
      simp only [mapKeys, List.map_cons, List.mem_cons] at ih ⊢
      rw [ih]
      tauto

theorem nodup_mapKeys_mapSet (m : List (String × PTool)) (k : String) (v : PTool)
    (h : (mapKeys m).Nodup) : (mapKeys (mapSet m k v)).Nodup := by
  induction m with
  | nil => simp [mapSet, mapKeys]
  | cons p rest ih =>
    simp only [mapKeys, List.map_cons, List.nodup_cons] at h
    by_cases h1 : p.1 = k
    · rw [mapSet_cons_pos p rest k v h1]
      simp only [mapKeys, List.map_cons, List.nodup_cons]
      exact ⟨h1 ▸ h.1, h.2⟩
    · rw [mapSet_cons_neg p rest k v h1]
      simp only [mapKeys, List.map_cons, List.nodup_cons]
      refine ⟨fun hc => ?_, ih h.2⟩
      rcases (mem_mapKeys_mapSet rest k p.1 v).mp hc with hc | hc
      · exact h.1 hc
      · exact h1 hc

theorem nodup_mapKeys_foldl (ts : List PTool) (m : List (String × PTool))
    (h : (mapKeys m).Nodup) : (mapKeys (ts.foldl registryRegister m)).Nodup := by
  induction ts generalizing m with
  | nil => exact h
  | cons t rest ih =>
    exact ih _ (nodup_mapKeys_mapSet m t.name t h)

theorem mem_mapKeys_foldl (ts : List PTool) (m : List (String × PTool)) (q : String) :
    q ∈ mapKeys (ts.foldl registryRegister m) ↔
      q ∈ mapKeys m ∨ ∃ t ∈ ts, t.name = q := by
  induction ts generalizing m with
  | nil => simp
  | cons t rest ih =>
    simp only [List.foldl_cons, ih, registryRegister, mem_mapKeys_mapSet, List.mem_cons]
    constructor
    · intro h
      rcases h with (h | h) | ⟨x, hx, hn⟩
      · exact Or.inl h
      · exact Or.inr ⟨t, Or.inl rfl, h.symm⟩
      · exact Or.inr ⟨x, Or.inr hx, hn⟩
    · intro h
      rcases h with h | ⟨x, hx | hx, hn⟩
      · exact Or.inl (Or.inl h)
      · subst hx; exact Or.inl (Or.inr hn.symm)
      · exact Or.inr ⟨x, hx, hn⟩

/-- C10: for every sequence of `register` calls on a `ToolRegistry`, `get`
returns the most recently registered tool with the requested name; `get`
returns `undefined` (here `none`) exactly when no tool with that name was ever
registered; re-registering a name silently replaces the earlier tool, so the
underlying map — and hence `list()` — holds exactly one entry per distinct
registered name. -/
theorem registry_register_get_list (ts : List PTool) (n : String) :
    mapGet (registerAll ts) n = lastRegistered ts n ∧
    (mapGet (registerAll ts) n = none ↔ ∀ t ∈ ts, t.name ≠ n) ∧
    (mapKeys (registerAll ts)).Nodup ∧
    (∀ q, q ∈ mapKeys (registerAll ts) ↔ ∃ t ∈ ts, t.name = q) ∧
    (registryList (registerAll ts)).length = (mapKeys (registerAll ts)).length := by
  have hget : mapGet (registerAll ts) n = lastRegistered ts n := by
    rw [registerAll, mapGet_foldl]
    cases lastRegistered ts n <;> simp [mapGet]
  refine ⟨hget, ?_, ?_, ?_, ?_⟩
  · rw [hget]; exact lastRegistered_eq_none ts n
  · exact nodup_mapKeys_foldl ts [] (by simp [mapKeys])
  · intro q
    rw [registerAll, mem_mapKeys_foldl]
    simp [mapKeys]
  · simp [registryList, mapKeys]

/-! ## Session messages and the client submit handler
(`handleSubmit` in the Chat component, src/src/lib/tools/registry.ts)

On submit the component appends the user message, streams the response
accumulating `fullResponse` chunk by chunk, and only after the stream reports
`done` appends a single assistant message holding the full accumulated text.
Any failure (non-ok response or a mid-stream read error) jumps to the catch
block, which records an error banner and appends no assistant message. -/

structure Msg where
  role : String
  content : String
deriving DecidableEq

def userMsg (s : String) : Msg := ⟨"user", s⟩

def assistantMsg (s : String) : Msg := ⟨"assistant", s⟩

/-- The transcript update performed by one `handleSubmit` turn.  The stream
outcome is either the complete ordered chunk sequence (the reader reached
`done`), or a failure message from the catch block (non-ok response or a
mid-stream read error). -/
def handleSubmit (msgs : List Msg) (input : String)
    (streamRes : Except String (List String)) : List Msg :=
  let msgs1 := msgs ++ [userMsg input]
  match streamRes with
  | .ok chunks => msgs1 ++ [assistantMsg (String.join chunks)]
  | .error _ => msgs1

/-- Number of assistant-role messages in a transcript. -/
def assistantCount (l : List Msg) : Nat :=
  (l.filter (fun m => m.role == "assistant")).length

/-- C6: per turn, the assistant message is appended exactly once, only after
the stream has reached its terminal event (its content is the join of the
complete chunk sequence); a turn failing mid-stream appends no assistant
message (half or whole), and the messages present before the turn are
preserved unchanged in both cases. -/
theorem assistant_appended_exactly_once (msgs : List Msg) (input : String)
    (chunks : List String) (e : String) :
    handleSubmit msgs input (.ok chunks) =
      (msgs ++ [userMsg input]) ++ [assistantMsg (String.join chunks)] ∧
    assistantCount (handleSubmit msgs input (.ok chunks)) = assistantCount msgs + 1 ∧
    handleSubmit msgs input (.error e) = msgs ++ [userMsg input] ∧
    assistantCount (handleSubmit msgs input (.error e)) = assistantCount msgs ∧
    (handleSubmit msgs input (.error e)).take msgs.length = msgs ∧
    (handleSubmit msgs input (.ok chunks)).take msgs.length = msgs := by
  refine ⟨rfl, ?_, rfl, ?_, ?_, ?_⟩
  · simp [handleSubmit, assistantCount, List.filter_append, userMsg, assistantMsg]
  · simp [handleSubmit, assistantCount, List.filter_append, userMsg]
  · show ((msgs ++ [userMsg input])).take msgs.length = msgs
    exact List.take_left msgs _
  · show ((msgs ++ [userMsg input]) ++ [assistantMsg (String.join chunks)]).take
      msgs.length = msgs
    rw [List.append_assoc]
    exact List.take_left msgs _

/-! ## The tool-schema cache (`getTools` in src/app/metadata.ts)

`let cachedTools: any = null` is a module-level mutable variable.  `getTools`
returns the cache when populated; otherwise it fetches `/api/tools`, stores
the parsed body into the cache on success, and on any failure logs and
returns `null`, leaving the cache `null` (the next call fetches again).  The
function is modelled as a state transformer on the cache cell, with the
outcome of the runtime fetch supplied as an oracle argument; it returns the
produced tool list together with the new cache contents. -/

def getTools {α : Type} (cached : Option α) (fetched : Option α) :
    Option α × Option α :=
  match cached with
  | some t => (some t, some t)
  | none =>
    match fetched with
    | some t => (some t, some t)
    | none => (none, none)

/-- C5 counterexample: the tool-schema list is not a read-only value fixed at
process start.  The module initializes the cache to `null`; from that state
the value `getTools` hands to the orchestrating route is whatever the
request-time fetch produced (two different fetch outcomes yield two different
tool lists), and after a failed fetch the cache is left `null`, so a later
call fetches again. -/
theorem tool_cache_not_static_cex :
    getTools (none : Option (List String)) none = (none, none) ∧
    getTools (none : Option (List String)) (some ["analyzeExcel"]) =
      (some ["analyzeExcel"], some ["analyzeExcel"]) ∧
    getTools (none : Option (List String)) (some ["analyzeExcel"]) ≠
      getTools (none : Option (List String)) (some ["queryDatabase"]) := by
  refine ⟨rfl, rfl, ?_⟩
  decide

/-- C5 amended: the tool-schema list used by the orchestrating chat route is a
mutable module-level cache, initialized to `null` at module load and populated
lazily: once populated it is returned unchanged on every later call, while an
empty cache returns exactly the request-time fetch outcome — in particular it
is left `null` (and will be re-fetched) after a failed fetch. -/
theorem getTools_cache_semantics {α : Type} (t : α) (fetched : Option α) :
    getTools (some t) fetched = (some t, some t) ∧
    getTools (none : Option α) fetched = (fetched, fetched) := by
  refine ⟨rfl, ?_⟩
  cases fetched <;> rfl

/-! ## The orchestrating chat route (POST in src/app/metadata.ts)

The route parses `{ messages, filePath }` from the request, fetches the tool
list, asks the model (non-streaming) to classify the turn, and branches on
`choice.message?.tool_calls?.length > 0`:

* tool branch — builds the notice `"[系統] 使用工具: <names joined by ', '>
  來處理您的請求...\n\n"`, performs one fetch of the backend `/api/chat` with
  the last user message content, and returns a `ReadableStream` that first
  enqueues the notice and then forwards every backend chunk in read order;
* direct branch — builds the notice `"[系統] 直接回答您的問題...\n\n"`, opens a
  streaming model completion, and returns a stream that first enqueues the
  notice and then forwards every model chunk in read order.

Every `await` failure lands in the catch block: an `OpenAI.APIError` is
returned as `new Response(message, { status })`, anything else as
`new Response('An error occurred', { status: 500 })`.

External awaits (request parsing, the classification call, the backend fetch,
the streaming completion) are supplied as oracle arguments; an error value
carries the thrown error's fields.  The second component of the result
records whether the backend `/api/chat` fetch was issued. -/

structure ErrInfo where
  isAPIError : Bool
  message : String
  status : Nat
  stack : String
deriving DecidableEq

structure ModelChoice where
  toolCalls : List String
  content : String
deriving DecidableEq

structure TurnInput where
  parseReq : Except ErrInfo (List Msg × Option String)
  classify : Except ErrInfo ModelChoice
  backend : Except ErrInfo (List String)
  directStream : Except ErrInfo (List String)

inductive ChatResponse where
  | stream (chunks : List String)
  | errorResp (body : String) (status : Nat)
  | jsonError (msg : String) (status : Nat)
deriving DecidableEq

def isErrorResp : ChatResponse → Bool
  | .stream _ => false
  | .errorResp _ _ => true
  | .jsonError _ _ => true

def isStreamResp : ChatResponse → Bool
  | .stream _ => true
  | .errorResp _ _ => false
  | .jsonError _ _ => false

/-- The notice enqueued first on the tool branch:
`"[系統] 使用工具: ${toolNames} 來處理您的請求...\n\n"` with the tool names
joined by `', '`. -/
def toolNotice (names : List String) : String :=
  "[系統] 使用工具: " ++ String.intercalate ", " names ++ " 來處理您的請求...\n\n"

/-- The notice enqueued first on the direct branch. -/
def directNotice : String :=
  "[系統] 直接回答您的問題...\n\n"

/-- The catch block of the orchestrating route. -/
def errorResponse (e : ErrInfo) : ChatResponse :=
  if e.isAPIError then .errorResp e.message e.status
  else .errorResp "An error occurred" 500

def chatPOST (inp : TurnInput) : ChatResponse × Bool :=
  match inp.parseReq with
  | .error e => (errorResponse e, false)
  | .ok _ =>
    match inp.classify with
    | .error e => (errorResponse e, false)
    | .ok choice =>
      match choice.toolCalls with
      | [] =>
        match inp.directStream with
        | .error e => (errorResponse e, false)
        | .ok chunks => (.stream (directNotice :: chunks), false)
      | n :: ns =>
        match inp.backend with
        | .error e => (errorResponse e, true)
        | .ok chunks => (.stream (toolNotice (n :: ns) :: chunks), true)

/-! ## The forwarding chat route (POST in src/unnamed/part_001)

This route forwards the request body to `PYTHON_API_URL` and pumps the backend
response through a `TransformStream`, writing every chunk in read order and
closing afterwards.  Any failure before the stream is returned (missing env
var, fetch rejection, non-ok status) is caught and answered with
`NextResponse.json({ error: 'Internal Server Error' }, { status: 500 })`. -/

/-- The pump loop of the forwarding route: write every chunk read from the
backend, in order, then close. -/
def pump : List String → List String
  | [] => []
  | c :: rest => c :: pump rest

def part001POST (upstream : Except ErrInfo (List String)) : ChatResponse :=
  match upstream with
  | .error _ => .jsonError "Internal Server Error" 500
  | .ok chunks => .stream (pump chunks)

theorem pump_id (chunks : List String) : pump chunks = chunks := by
  induction chunks with
  | nil => rfl
  | cons c rest ih => simp [pump, ih]

/-- C2 counterexample: on a turn whose classification carries two tool calls,
the orchestrating route does not reject: it issues the single backend dispatch
and streams a notice naming both tools followed by the backend output.  No
`validation_rejected`-class error is produced. -/
theorem multi_tool_call_not_rejected_cex :
    chatPOST ⟨.ok ([], none),
        .ok ⟨["analyzeExcel", "queryDatabase"], ""⟩,
        .ok ["rows: 120"], .ok []⟩ =
      (ChatResponse.stream [toolNotice ["analyzeExcel", "queryDatabase"], "rows: 120"],
        true) ∧
    isErrorResp (chatPOST ⟨.ok ([], none),
        .ok ⟨["analyzeExcel", "queryDatabase"], ""⟩,
        .ok ["rows: 120"], .ok []⟩).1 = false := by
  exact ⟨rfl, rfl⟩

/-- C2 amended: when the model returns more than one tool call in a turn, the
orchestrating route does not reject the turn; it treats it exactly like a
single tool invocation — one backend dispatch is issued, and the status notice
simply lists every requested tool name joined by `', '` — with no
`validation_rejected`-class error surfaced to the caller. -/
theorem multi_tool_call_dispatched (p : List Msg × Option String)
    (n1 n2 : String) (ns : List String) (c : String) (bs : List String)
    (d : Except ErrInfo (List String)) :
    chatPOST ⟨.ok p, .ok ⟨n1 :: n2 :: ns, c⟩, .ok bs, d⟩ =
      (ChatResponse.stream (toolNotice (n1 :: n2 :: ns) :: bs), true) ∧
    isErrorResp (chatPOST ⟨.ok p, .ok ⟨n1 :: n2 :: ns, c⟩, .ok bs, d⟩).1 = false := by
  exact ⟨rfl, rfl⟩

/-- C4: on both branches of the orchestrating route the first chunk enqueued
on the response stream is the status notice — a string extending the literal
`"[系統]"` — and every subsequent chunk is the upstream output forwarded in
exactly the order it was produced (the stream is the notice consed onto the
unchanged upstream chunk list, and the forwarding route's pump loop is the
identity on the chunk sequence). -/
theorem status_notice_first_and_ordered (p : List Msg × Option String)
    (n : String) (ns : List String) (c : String) (bs ds : List String)
    (b d : Except ErrInfo (List String)) :
    (chatPOST ⟨.ok p, .ok ⟨n :: ns, c⟩, .ok bs, d⟩).1 =
      ChatResponse.stream (toolNotice (n :: ns) :: bs) ∧
    (chatPOST ⟨.ok p, .ok ⟨[], c⟩, b, .ok ds⟩).1 =
      ChatResponse.stream (directNotice :: ds) ∧
    (∃ r, toolNotice (n :: ns) = "[系統]" ++ r) ∧
    (∃ r, directNotice = "[系統]" ++ r) ∧
    pump bs = bs := by
  refine ⟨rfl, rfl, ?_, ?_, pump_id bs⟩
  · refine ⟨" 使用工具: " ++ (String.intercalate ", " (n :: ns) ++
      " 來處理您的請求...\n\n"), ?_⟩
    show "[系統] 使用工具: " ++ String.intercalate ", " (n :: ns) ++
      " 來處理您的請求...\n\n" = _
    rw [show ("[系統] 使用工具: " : String) = "[系統]" ++ " 使用工具: " from by decide]
    rw [String.append_assoc, String.append_assoc]
  · exact ⟨" 直接回答您的問題...\n\n", by decide⟩

/-- C7: a failure in the orchestrating route's own control flow (any failed
await: request parsing, the classification call, the backend fetch, the
streaming completion) terminates the turn with a single error response — never
a stream — whose body is either the API error's own message or a fixed
human-readable literal; the response is independent of the thrown error's
stack trace, so raw internal diagnostics are never surfaced.  The forwarding
route answers every own-control-flow failure with the constant
`'Internal Server Error'` body.  The routes hold no session state: the
client transcript after a failed turn is the previous transcript plus the
user message, so the session remains usable for the next turn. -/
theorem route_failure_contained (e : ErrInfo) (s : String)
    (p : List Msg × Option String) (c : String) (n : String) (ns : List String)
    (cl : Except ErrInfo ModelChoice) (b d : Except ErrInfo (List String))
    (msgs : List Msg) (input : String) :
    chatPOST ⟨.error e, cl, b, d⟩ = (errorResponse e, false) ∧
    chatPOST ⟨.ok p, .error e, b, d⟩ = (errorResponse e, false) ∧
    chatPOST ⟨.ok p, .ok ⟨n :: ns, c⟩, .error e, d⟩ = (errorResponse e, true) ∧
    chatPOST ⟨.ok p, .ok ⟨[], c⟩, b, .error e⟩ = (errorResponse e, false) ∧
    errorResponse ⟨e.isAPIError, e.message, e.status, s⟩ = errorResponse e ∧
    (errorResponse e = ChatResponse.errorResp e.message e.status ∨
      errorResponse e = ChatResponse.errorResp "An error occurred" 500) ∧
    isStreamResp (errorResponse e) = false ∧
    part001POST (.error e) = ChatResponse.jsonError "Internal Server Error" 500 ∧
    handleSubmit msgs input (.error e.message) = msgs ++ [userMsg input] := by
  refine ⟨rfl, rfl, rfl, rfl, ?_, ?_, ?_, rfl, rfl⟩
  · cases e; rfl
  · by_cases h : e.isAPIError = true
    · exact Or.inl (by simp [errorResponse, h])
    · exact Or.inr (by simp [errorResponse, h])
  · by_cases h : e.isAPIError = true <;> simp [errorResponse, isStreamResp, h]

/-- C8 counterexample: a model-collaborator failure is not surfaced as a
distinguishable `upstream_unavailable`-class failure.  In the orchestrating
route, a network failure of the classification call and an ordinary request
parse failure produce the byte-identical generic response
`'An error occurred'` / 500; the forwarding route answers every failure —
upstream outage or not — with the constant `'Internal Server Error'` / 500;
and a failed tool-list fetch is swallowed entirely (`getTools` returns `null`
and the turn proceeds).  No output distinguishes an upstream failure from the
other error classes. -/
theorem upstream_failure_indistinct_cex :
    chatPOST ⟨.ok ([], none),
        .error ⟨false, "fetch failed", 0, "TypeError: fetch failed at node internal"⟩,
        .ok [], .ok []⟩ =
      (ChatResponse.errorResp "An error occurred" 500, false) ∧
    chatPOST ⟨.error ⟨false, "Unexpected end of JSON input", 0, "SyntaxError"⟩,
        .ok ⟨[], ""⟩, .ok [], .ok []⟩ =
      (ChatResponse.errorResp "An error occurred" 500, false) ∧
    (chatPOST ⟨.ok ([], none),
        .error ⟨false, "fetch failed", 0, "TypeError: fetch failed at node internal"⟩,
        .ok [], .ok []⟩).1 =
      (chatPOST ⟨.error ⟨false, "Unexpected end of JSON input", 0, "SyntaxError"⟩,
        .ok ⟨[], ""⟩, .ok [], .ok []⟩).1 ∧
    part001POST (.error ⟨false, "upstream down", 0, ""⟩) =
      ChatResponse.jsonError "Internal Server Error" 500 ∧
    part001POST (.error ⟨false, "body parse failure", 0, ""⟩) =
      ChatResponse.jsonError "Internal Server Error" 500 ∧
    getTools (none : Option (List String)) none = (none, none) := by
  exact ⟨rfl, rfl, rfl, rfl, rfl, rfl⟩

/-- C8 amended: a failure of the model or upload collaborator travels the same
generic error path as every other failure: the orchestrating route returns the
`OpenAI.APIError`'s own message and status when the thrown error is an API
error and the fixed `'An error occurred'` / 500 otherwise; the forwarding
route returns `'Internal Server Error'` / 500 for every failure; and a failed
tool-list fetch is swallowed — `getTools` returns `null` and the turn
proceeds.  No dedicated `upstream_unavailable` class distinguishable from the
other failure classes exists in the routes. -/
theorem upstream_failure_generic_path (p : List Msg × Option String)
    (e e2 : ErrInfo) (b d : Except ErrInfo (List String))
    (fetched : Option (List String)) :
    (e.isAPIError = false →
      chatPOST ⟨.ok p, .error e, b, d⟩ =
        (ChatResponse.errorResp "An error occurred" 500, false)) ∧
    (e.isAPIError = true →
      chatPOST ⟨.ok p, .error e, b, d⟩ =
        (ChatResponse.errorResp e.message e.status, false)) ∧
    part001POST (.error e2) = ChatResponse.jsonError "Internal Server Error" 500 ∧
    getTools (none : Option (List String)) fetched = (fetched, fetched) := by
  refine ⟨?_, ?_, rfl, ?_⟩
  · intro h
    simp [chatPOST, errorResponse, h]
  · intro h
    simp [chatPOST, errorResponse, h]
  · cases fetched <;> rfl

/-- C8 witness: the amended behaviour evaluated at a concrete non-API network
failure of the model call. -/
theorem upstream_failure_generic_path_witness :
    chatPOST ⟨.ok ([], none), .error ⟨false, "connect ECONNREFUSED", 0, ""⟩,
        .ok [], .ok []⟩ =
      (ChatResponse.errorResp "An error occurred" 500, false) :=
  (upstream_failure_generic_path ([], none) ⟨false, "connect ECONNREFUSED", 0, ""⟩
    ⟨true, "x", 400, ""⟩ (.ok []) (.ok []) none).1 rfl

/-! ## Tool argument values and schemas

JSON values passed as tool arguments, reduced to their runtime type tag,
which is all the schema check consults (type and required-field checks only,
no semantic validation). -/

inductive JValue where
  | str (s : String)
  | num (n : Int)
  | boolV (b : Bool)
  | objV
  | arrV
deriving DecidableEq

def typeName : JValue → String
  | .str _ => "string"
  | .num _ => "number"
  | .boolV _ => "boolean"
  | .objV => "object"
  | .arrV => "array"

/-- A tool's declared parameter schema: property name/type pairs plus the
required-field list, as in the `tools` constant of src/unnamed/part_001. -/
structure ParamSchema where
  props : List (String × String)
  required : List String
deriving DecidableEq

structure ToolSchema where
  name : String
  description : String
  params : ParamSchema
deriving DecidableEq

/-- The `analyzeExcel` schema declared in src/unnamed/part_001. -/
def analyzeExcelSchema : ToolSchema :=
  ⟨"analyzeExcel", "分析Excel文件數據",
    ⟨[("filePath", "string"), ("query", "string")], ["filePath", "query"]⟩⟩

/-- The `queryDatabase` schema declared in src/unnamed/part_001. -/
def queryDatabaseSchema : ToolSchema :=
  ⟨"queryDatabase", "執行數據庫查詢", ⟨[("query", "string")], ["query"]⟩⟩

/-- The declared tool-schema list of src/unnamed/part_001. -/
def toolSchemas : List ToolSchema := [analyzeExcelSchema, queryDatabaseSchema]

/-! ## Tool dispatch (Modelled from the spec)

Modelled from the spec: the Tool Registry's
`dispatch(ToolCall) -> ExecutionResult` lives in the Python backend, which is
not among the TypeScript sources; only the registry class and the declared
schemas are.  Per the design document, dispatch validates the ToolCall's
arguments against the registered schema — type and required-field checks
only — and fails with a `validation_rejected` ExecutionResult (never an
escaping exception) when the check fails or the tool name is unknown, so the
handler is never reached with arguments missing a required field. -/

inductive ExecutionTag where
  | success
  | timeout
  | memory_exceeded
  | runtime_error
  | validation_rejected
deriving DecidableEq

structure ExecutionResult where
  outcome : ExecutionTag
  message : String
deriving DecidableEq

def validationRejectedResult : ExecutionResult :=
  ⟨.validation_rejected, "arguments do not satisfy the tool schema"⟩

structure ToolCallV where
  name : String
  args : List (String × JValue)

/-- The value bound to an argument name, if present. -/
def lookupArg (args : List (String × JValue)) (k : String) : Option JValue :=
  (args.find? (fun kv => kv.1 == k)).map (fun kv => kv.2)

/-- Modelled from the spec: every required field is present. -/
def requiredOk (ps : ParamSchema) (args : List (String × JValue)) : Bool :=
  ps.required.all (fun r => (lookupArg args r).isSome)

/-- Modelled from the spec: every declared property that is present carries a
value of the declared type. -/
def typesOk (ps : ParamSchema) (args : List (String × JValue)) : Bool :=
  ps.props.all (fun kv =>
    match lookupArg args kv.1 with
    | none => true
    | some v => typeName v == kv.2)

def checkArgs (ps : ParamSchema) (args : List (String × JValue)) : Bool :=
  requiredOk ps args && typesOk ps args

structure RegEntry where
  tool : ToolSchema
  handler : List (String × JValue) → ExecutionResult

/-- Modelled from the spec: dispatch resolves the tool name, runs the schema
check, and only then invokes the handler; the second component records
whether the handler was invoked. -/
def dispatch (reg : List RegEntry) (tc : ToolCallV) : ExecutionResult × Bool :=
  match reg.find? (fun e => e.tool.name == tc.name) with
  | none => (validationRejectedResult, false)
  | some e =>
    if checkArgs e.tool.params tc.args then (e.handler tc.args, true)
    else (validationRejectedResult, false)

/-- C3: dispatch validates the argument mapping against the registered tool's
declared parameter schema before the handler runs: a failed schema check (or
an unknown tool name) yields the `validation_rejected` ExecutionResult with
the handler not invoked — dispatch is a total function, so no exception
escapes — and whenever the handler is invoked, every required field of the
registered schema is present in the argument mapping. -/
theorem dispatch_schema_guard (reg : List RegEntry) (tc : ToolCallV) :
    (∀ e, reg.find? (fun x => x.tool.name == tc.name) = some e →
      checkArgs e.tool.params tc.args = false →
      dispatch reg tc = (validationRejectedResult, false)) ∧
    (∀ e, reg.find? (fun x => x.tool.name == tc.name) = some e →
      (dispatch reg tc).2 = true →
      ∀ r ∈ e.tool.params.required, (lookupArg tc.args r).isSome = true) ∧
    (reg.find? (fun x => x.tool.name == tc.name) = none →
      dispatch reg tc = (validationRejectedResult, false)) := by
  refine ⟨?_, ?_, ?_⟩
  · intro e hf hc
    simp [dispatch, hf, hc]
  · intro e hf hinv
    have hc : checkArgs e.tool.params tc.args = true := by
      by_contra hcn
      rw [Bool.not_eq_true] at hcn
      rw [show dispatch reg tc = (validationRejectedResult, false) from by
        simp [dispatch, hf, hcn]] at hinv
      exact Bool.noConfusion hinv
    have hreq : requiredOk e.tool.params tc.args = true := by
      have := hc
      unfold checkArgs at this
      exact (Bool.and_eq_true _ _).mp this |>.1
    intro r hr
    exact List.all_eq_true.mp hreq r hr
  · intro hf
    simp [dispatch, hf]

/-- A concrete dispatch scenario for the witness: the `analyzeExcel` tool with
a trivially succeeding handler, called with the required `query` field
missing. -/
def wAnalyzeEntry : RegEntry :=
  ⟨analyzeExcelSchema, fun _ => ⟨.success, "ok"⟩⟩

def wMissingQueryCall : ToolCallV :=
  ⟨"analyzeExcel", [("filePath", .str "uploads/data.xlsx")]⟩

/-- C3 witness: dispatching `analyzeExcel` without the required `query`
argument is rejected before the handler runs. -/
theorem dispatch_schema_guard_witness :
    dispatch [wAnalyzeEntry] wMissingQueryCall = (validationRejectedResult, false) :=
  (dispatch_schema_guard [wAnalyzeEntry] wMissingQueryCall).1 wAnalyzeEntry rfl rfl

/-! ## The excelAnalyzer handler (src/src/lib/tools/definitions.ts)

The handler wraps its whole body in try/catch: `XLSX.readFile(filePath)`
throws when the path does not resolve; `sheet_to_json` turns the first sheet
into an array of row objects; the switch on `operation` returns
`{ rowCount, columns: Object.keys(data[0]), sample: data.slice(0, 5) }` for
`'summary'`, `{ result: '分析結果' }` for `'analyze'`, and
`{ error: '不支持的操作' }` otherwise (including a missing operation, since
`switch (undefined)` falls to `default`).  On an empty sheet
`Object.keys(data[0])` is `Object.keys(undefined)`, which throws a TypeError
caught by the handler's catch block, so `'summary'` answers with an error
object instead of `rowCount: 0`.  The catch block returns
`{ error: error.message }`, so the handler always returns an object and never
throws.  Rows are modelled as ordered key/value lists; the file system
(workbook reading plus `sheet_to_json` of the first sheet) is an oracle from
paths to row lists. -/

abbrev XRow := List (String × JValue)

inductive ExcelResult where
  | summaryRes (rowCount : Nat) (columns : List String) (sample : List XRow)
  | analyzeRes (result : String)
  | errorRes (msg : String)
deriving DecidableEq

def excelAnalyzer (fs : String → Option (List XRow)) (filePath : Option String)
    (operation : Option String) : ExcelResult :=
  match filePath.bind fs with
  | none => .errorRes "XLSX.readFile failed: no such file"
  | some data =>
    match operation with
    | some op =>
      if op = "summary" then
        match data with
        | [] => .errorRes "Cannot convert undefined or null to object"
        | r :: rest =>
          .summaryRes (r :: rest).length (r.map Prod.fst) ((r :: rest).take 5)
      else if op = "analyze" then .analyzeRes "分析結果"
      else .errorRes "不支持的操作"
    | none => .errorRes "不支持的操作"

/-- C9: the handler is total (it returns an `ExcelResult` object on every
input, never raising): on a sheet with at least one data row, `'summary'`
returns the row count, the first row's column names and a sample of at most
five rows; on a sheet with zero data rows, `'summary'` returns an error
object — the caught `Object.keys(undefined)` TypeError — rather than
`rowCount` 0; and any operation other than `'summary'` and `'analyze'`
returns an error object. -/
theorem excelAnalyzer_cases (fs : String → Option (List XRow)) (fp : String)
    (r : XRow) (rest : List XRow) (op : String) :
    (fs fp = some (r :: rest) →
      excelAnalyzer fs (some fp) (some "summary") =
        .summaryRes (r :: rest).length (r.map Prod.fst) ((r :: rest).take 5) ∧
      ((r :: rest).take 5).length ≤ 5) ∧
    (fs fp = some [] →
      excelAnalyzer fs (some fp) (some "summary") =
        .errorRes "Cannot convert undefined or null to object") ∧
    (op ≠ "summary" → op ≠ "analyze" →
      ∃ m, excelAnalyzer fs (some fp) (some op) = .errorRes m) := by
  refine ⟨?_, ?_, ?_⟩
  · intro h
    constructor
    · simp [excelAnalyzer, h]
    · rw [List.length_take]
      exact min_le_left 5 _
  · intro h
    simp [excelAnalyzer, h]
  · intro h1 h2
    unfold excelAnalyzer
    cases hf : (some fp).bind fs with
    | none => exact ⟨"XLSX.readFile failed: no such file", rfl⟩
    | some data =>
      refine ⟨"不支持的操作", ?_⟩
      simp [h1, h2]

/-- A two-row sheet for the witness. -/
def wSheet : List XRow :=
  [[("id", .num 1), ("name", .str "a")], [("id", .num 2), ("name", .str "b")]]

def wFs : String → Option (List XRow) :=
  fun p => if p = "uploads/data.xlsx" then some wSheet else none

/-- C9 witness: the handler evaluated on a concrete two-row sheet for
`'summary'` and on an unsupported operation. -/
theorem excelAnalyzer_cases_witness :
    excelAnalyzer wFs (some "uploads/data.xlsx") (some "summary") =
      .summaryRes 2 ["id", "name"]
        [[("id", .num 1), ("name", .str "a")], [("id", .num 2), ("name", .str "b")]] ∧
    (∃ m, excelAnalyzer wFs (some "uploads/data.xlsx") (some "export") =
      ExcelResult.errorRes m) :=
  ⟨((excelAnalyzer_cases wFs "uploads/data.xlsx"
      [("id", .num 1), ("name", .str "a")] [[("id", .num 2), ("name", .str "b")]]
      "export").1 (by decide)).1,
    (excelAnalyzer_cases wFs "uploads/data.xlsx"
      [("id", .num 1), ("name", .str "a")] [[("id", .num 2), ("name", .str "b")]]
      "export").2.2 (by decide) (by decide)⟩

/-! ## Code Validator and execution pipeline (Modelled from the spec)

Modelled from the spec: the Code Validator and the Sandbox Executor live in
the RestrictedPython backend, which is not among the TypeScript sources.  Per
the design document (§4.3), `validate(code_text, allowlist)` performs a
static pass over the code's abstract structure and returns `rejected(reason)`
on: any import of a module outside the allowlist; any attribute access whose
name begins and ends with a double underscore; any call to a name on the
deny-list (`exec`, `eval`, `compile`, `open`, `__import__`); any assignment
to or read of a name outside the injected `dataframe` binding and the
allowlisted builtins.  The analysis handler (§4.2) composes Code Generator →
Code Validator → Sandbox Executor in that fixed order, and rejected code is
never passed to the Sandbox Executor. -/

mutual
inductive PyExpr where
  | constE
  | nameRef (s : String)
  | callName (fn : String) (args : PyArgs)
  | attrAccess (obj : PyExpr) (fld : String)
deriving DecidableEq
inductive PyArgs where
  | nil
  | cons (a : PyExpr) (rest : PyArgs)
deriving DecidableEq
end

inductive PyStmt where
  | exprStmt (e : PyExpr)
  | assign (target : String) (value : PyExpr)
  | importStmt (modName : String)
deriving DecidableEq

abbrev PyProgram := List PyStmt

/-- The constructs the static pass inspects, one node per name occurrence,
call, attribute access, import or assignment target. -/
inductive CodeNode where
  | callN (fn : String)
  | attrN (fld : String)
  | nameN (s : String)
  | importN (modName : String)
  | assignN (target : String)
deriving DecidableEq

mutual
def exprNodes : PyExpr → List CodeNode
  | .constE => []
  | .nameRef s => [.nameN s]
  | .callName f args => .callN f :: argsNodes args
  | .attrAccess obj fld => .attrN fld :: exprNodes obj
def argsNodes : PyArgs → List CodeNode
  | .nil => []
  | .cons a rest => exprNodes a ++ argsNodes rest
end

def stmtNodes : PyStmt → List CodeNode
  | .exprStmt e => exprNodes e
  | .assign t v => .assignN t :: exprNodes v
  | .importStmt m => [.importN m]

def progNodes (p : PyProgram) : List CodeNode :=
  (p.map stmtNodes).flatten

/-- Modelled from the spec: the validator's deny-list of callable names. -/
def isDeniedName (f : String) : Bool :=
  f == "exec" || f == "eval" || f == "compile" || f == "open" || f == "__import__"

/-- A name beginning and ending with a double underscore. -/
def isDunder (s : String) : Bool :=
  s.startsWith "__" && s.endsWith "__"

structure Allowlist where
  imports : List String
  builtins : List String

/-- A name the generated code may read, call or assign: the single injected
`dataframe` binding or an allowlisted builtin. -/
def allowedName (al : Allowlist) (s : String) : Bool :=
  s == "dataframe" || al.builtins.contains s

/-- Modelled from the spec: the verdict of the static pass on one construct,
with the offending name in the reason for observability. -/
def nodeOffense (al : Allowlist) : CodeNode → Option String
  | .callN f =>
    if isDeniedName f then some ("denylisted call: " ++ f)
    else if allowedName al f then none
    else some ("name not allowed: " ++ f)
  | .attrN fld =>
    if isDunder fld then some ("dunder attribute access: " ++ fld) else none
  | .nameN s =>
    if allowedName al s then none else some ("name not allowed: " ++ s)
  | .importN m =>
    if al.imports.contains m then none else some ("import not allowed: " ++ m)
  | .assignN t =>
    if allowedName al t then none else some ("assignment not allowed: " ++ t)

inductive Verdict where
  | accepted
  | rejected (reason : String)
deriving DecidableEq

/-- Modelled from the spec: `validate(code_text, allowlist)` — the first
offending construct of the static pass, if any, is the rejection reason. -/
def validate (al : Allowlist) (p : PyProgram) : Verdict :=
  match (progNodes p).findSome? (nodeOffense al) with
  | some r => .rejected r
  | none => .accepted

/-- Modelled from the spec: the analysis handler pipeline.  Generation may
fail (`none`, surfaced as `runtime_error` before validation); generated text
may fail to parse (a `rejected` verdict); parsed code runs through `validate`
and only accepted code reaches the Sandbox Executor, whose outcome is an
oracle argument.  The second component records whether the executor was
invoked. -/
def runToolPipeline (al : Allowlist) (genResult : Option (Option PyProgram))
    (execOutcome : ExecutionTag) : ExecutionTag × Bool :=
  match genResult with
  | none => (.runtime_error, false)
  | some none => (.validation_rejected, false)
  | some (some prog) =>
    match validate al prog with
    | .rejected _ => (.validation_rejected, false)
    | .accepted => (execOutcome, true)

/-- The claim's deny-list (`exec`, `eval`, `open`, `__import__`) hit by a call
node. -/
def isClaimDeniedCall : CodeNode → Bool
  | .callN f => f == "exec" || f == "eval" || f == "open" || f == "__import__"
  | _ => false

/-- A dunder attribute access node. -/
def isDunderAttrNode : CodeNode → Bool
  | .attrN fld => isDunder fld
  | _ => false

/-- The code contains a call to a name on the claim's deny-list. -/
def hasDeniedCall (p : PyProgram) : Bool :=
  (progNodes p).any isClaimDeniedCall

/-- The code contains an attribute access beginning and ending with a double
underscore. -/
def hasDunderAttr (p : PyProgram) : Bool :=
  (progNodes p).any isDunderAttrNode

theorem findSome_isSome_of_mem {l : List CodeNode} {f : CodeNode → Option String}
    {n : CodeNode} (hn : n ∈ l) (ho : f n ≠ none) : ∃ r, l.findSome? f = some r := by
  cases hf : l.findSome? f with
  | some r => exact ⟨r, rfl⟩
  | none =>
    exact absurd (List.findSome?_eq_none_iff.mp hf n hn) ho

theorem nodeOffense_of_claimDenied (al : Allowlist) (n : CodeNode)
    (h : isClaimDeniedCall n = true) : nodeOffense al n ≠ none := by
  cases n with
  | callN f =>
    have hd : isDeniedName f = true := by
      simp only [isClaimDeniedCall, Bool.or_eq_true, beq_iff_eq] at h
      rcases h with ((rfl | rfl) | rfl) | rfl <;> rfl
    simp [nodeOffense, hd]
  | attrN fld => exact absurd h (by simp [isClaimDeniedCall])
  | nameN s => exact absurd h (by simp [isClaimDeniedCall])
  | importN m => exact absurd h (by simp [isClaimDeniedCall])
  | assignN t => exact absurd h (by simp [isClaimDeniedCall])

theorem nodeOffense_of_dunderAttr (al : Allowlist) (n : CodeNode)
    (h : isDunderAttrNode n = true) : nodeOffense al n ≠ none := by
  cases n with
  | callN f => exact absurd h (by simp [isDunderAttrNode])
  | attrN fld =>
    have hd : isDunder fld = true := by simpa [isDunderAttrNode] using h
    simp [nodeOffense, hd]
  | nameN s => exact absurd h (by simp [isDunderAttrNode])
  | importN m => exact absurd h (by simp [isDunderAttrNode])
  | assignN t => exact absurd h (by simp [isDunderAttrNode])

/-- C1: for every code text containing a call to a denylisted name (`exec`,
`eval`, `open`, `__import__`) or an attribute access beginning and ending
with a double underscore, the Code Validator returns a rejected verdict —
whatever the configured allowlist — and the analysis pipeline classifies the
run `validation_rejected` without ever invoking the Sandbox Executor. -/
theorem denylisted_code_rejected (al : Allowlist) (p : PyProgram)
    (h : hasDeniedCall p = true ∨ hasDunderAttr p = true) :
    (∃ r, validate al p = Verdict.rejected r) ∧
    ∀ eo, runToolPipeline al (some (some p)) eo =
      (ExecutionTag.validation_rejected, false) := by
  have hoff : ∃ n ∈ progNodes p, nodeOffense al n ≠ none := by
    rcases h with h | h
    · rcases List.any_eq_true.mp h with ⟨n, hn, hcl⟩
      exact ⟨n, hn, nodeOffense_of_claimDenied al n hcl⟩
    · rcases List.any_eq_true.mp h with ⟨n, hn, hcl⟩
      exact ⟨n, hn, nodeOffense_of_dunderAttr al n hcl⟩
  rcases hoff with ⟨n, hn, ho⟩
  rcases findSome_isSome_of_mem hn ho with ⟨r, hr⟩
  refine ⟨⟨r, by simp [validate, hr]⟩, ?_⟩
  intro eo
  simp [runToolPipeline, validate, hr]

/-- A denied program for the witness: `eval("2+2")`. -/
def wDeniedProg : PyProgram :=
  [.exprStmt (.callName "eval" (.cons .constE .nil))]

/-- An allowlist for the witness: pandas importable, a few builtins. -/
def wAllowlist : Allowlist :=
  ⟨["pandas", "math"], ["len", "sum", "min", "max", "print"]⟩

/-- C1 witness: the concrete program `eval("2+2")` contains a denylisted
call, is rejected by the validator, and never reaches the executor. -/
theorem denylisted_code_rejected_witness :
    hasDeniedCall wDeniedProg = true ∧
    ((∃ r, validate wAllowlist wDeniedProg = Verdict.rejected r) ∧
      ∀ eo, runToolPipeline wAllowlist (some (some wDeniedProg)) eo =
        (ExecutionTag.validation_rejected, false)) :=
  ⟨rfl, denylisted_code_rejected wAllowlist wDeniedProg (Or.inl rfl)⟩
